import Mathlib

/-!
Verification development for the magickey keyboard remapper
(source: magickey.py). The Python source is shallowly embedded:
pure helpers become Lean functions, the per-keyboard translation
engine becomes a step function on an explicit state record, Python
dicts (which preserve insertion order) become association lists, and
fallible parsing returns `Option`. Timestamps recorded by the source
(`ActiveKeyInfo.first_pressed_time`) never influence control flow or
emission and are omitted from the embedded state. `re.search` is kept
abstract as a Boolean-valued parameter, since no verified property
depends on the regex language itself.
-/

set_option autoImplicit false

namespace Magickey

/-- Key event states, magickey.py `class KeyState(IntEnum)`: up = 0,
down = 1, hold = 2. -/
inductive KeyState where
  | up
  | down
  | hold
deriving DecidableEq, Repr

/-- A key event as written to / read from a device: (key code, state). -/
abbrev KeyEv := Nat × KeyState

/-- Engine states, magickey.py `class KeyboardMappingState`. -/
inductive Mode where
  | PRE_MATCH_INIT
  | PRE_MATCH_PRESSED_KEY
  | PRE_MATCH_PRESSED_MODIFIER
  | MATCHED
  | UNMATCHED
deriving DecidableEq, Repr

/-- The focused window, magickey.py `class Window`: a (class, title)
pair of strings. -/
structure Window where
  class_ : String
  title : String
deriving DecidableEq, Repr

/-- One of the four per-rule window-predicate dicts (`match`,
`match_or`, `match_not`, `match_not_or`).  A Python dict with optional
keys `class` and `title`; `other` records whether the dict carries any
further keys, which affects only its truthiness. -/
structure MatchDict where
  cls : Option String
  title : Option String
  other : Bool
deriving DecidableEq, Repr

/-- Python truthiness of the predicate dict: non-empty dict. -/
def MatchDict.truthy (d : MatchDict) : Bool :=
  d.cls.isSome || d.title.isSome || d.other

/-- `KeyMapping` from magickey.py.  `src_modifiers`/`dst_modifiers`
are Python sets; they are embedded as duplicate-free lists whose order
stands in for Python's (unspecified) set iteration order. -/
structure KeyMapping where
  src_modifiers : List Nat
  src_key : Nat
  dst_modifiers : List Nat
  dst_key : Nat
  match_ : MatchDict
  match_or : MatchDict
  match_not : MatchDict
  match_not_or : MatchDict
deriving DecidableEq, Repr

/-- Python `==` on two sets represented as lists: mutual containment. -/
def pySetEq (a b : List Nat) : Bool :=
  a.all (fun x => b.contains x) && b.all (fun x => a.contains x)

/-- `MagicKeyboard.MODIFIER_KEY_CODES` with the concrete evdev codes:
KEY_LEFTCTRL=29, KEY_LEFTSHIFT=42, KEY_RIGHTSHIFT=54, KEY_LEFTALT=56,
KEY_CAPSLOCK=58, KEY_RIGHTCTRL=97, KEY_RIGHTALT=100, KEY_LEFTMETA=125,
KEY_RIGHTMETA=126. -/
def isModifierCode (k : Nat) : Bool :=
  [29, 42, 54, 56, 58, 97, 100, 125, 126].contains k

/-- The contribution of one sub-pattern inside `KeyMapping.is_match`
(source lines 304-315): the pattern constrains the result only when
both the pattern and the corresponding window field are non-empty
(truthy); `not`-variants invert the individual match. `search p s`
stands for `bool(re.search(p, s))`. -/
def patContrib (search : String → String → Bool) (isNot : Bool)
    (pat : Option String) (field : String) : Option Bool :=
  match pat with
  | none => none
  | some p =>
    if p.isEmpty = false ∧ field.isEmpty = false then
      some (if isNot then !(search p field) else search p field)
    else
      none

/-- Evaluation of one truthy predicate dict inside
`KeyMapping.is_match` (source lines 300-325), with the key conditions
already known to hold (so `return res` returns `true`). -/
def evalDict (search : String → String → Bool) (isNot isOr : Bool)
    (d : MatchDict) (w : Window) : Bool :=
  let c := patContrib search isNot d.cls w.class_
  let t := patContrib search isNot d.title w.title
  if c = none ∧ t = none then true
  else if isOr then c.getD false || t.getD false
  else c.getD true && t.getD true

/-- The window-predicate part of `KeyMapping.is_match` (source lines
296-327), evaluated only when the key conditions hold: an empty window
matches vacuously, otherwise the first truthy dict of
`match`/`match_or`/`match_not`/`match_not_or` decides, and with no
truthy dict the result is `true`. -/
def winPredicate (search : String → String → Bool) (r : KeyMapping)
    (w : Window) : Bool :=
  if w.title.isEmpty && w.class_.isEmpty then true
  else if r.match_.truthy then evalDict search false false r.match_ w
  else if r.match_or.truthy then evalDict search false true r.match_or w
  else if r.match_not.truthy then evalDict search true false r.match_not w
  else if r.match_not_or.truthy then evalDict search true true r.match_not_or w
  else true

/-- `KeyMapping.is_match` (source lines 291-327): the active modifier
set must equal `src_modifiers` exactly, the key must equal `src_key`,
and the window predicate must hold. -/
def isMatch (search : String → String → Bool) (r : KeyMapping)
    (modifiers : List Nat) (key : Nat) (w : Window) : Bool :=
  pySetEq r.src_modifiers modifiers && (r.src_key == key)
    && winPredicate search r w

/-- Python `str.lower()` (ASCII data), written over the character list
so that it evaluates inside the kernel. -/
def strLower (s : String) : String := ⟨s.data.map Char.toLower⟩

/-- Python `str.upper()` (ASCII data). -/
def strUpper (s : String) : String := ⟨s.data.map Char.toUpper⟩

/-- Python `str.strip()`: drop whitespace from both ends. -/
def strStrip (s : String) : String :=
  ⟨((s.data.dropWhile Char.isWhitespace).reverse.dropWhile Char.isWhitespace).reverse⟩

/-- Helper for `splitChar`: Python `str.split(sep)` over a character
list, accumulating the current component in reverse. -/
def splitCharAux (sep : Char) : List Char → List Char → List String
  | [], acc => [⟨acc.reverse⟩]
  | c :: cs, acc =>
    if c = sep then ⟨acc.reverse⟩ :: splitCharAux sep cs []
    else splitCharAux sep cs (c :: acc)

/-- Python `str.split(sep)` for a one-character separator (the source
only ever splits on `'+'`). -/
def splitChar (sep : Char) (s : String) : List String :=
  splitCharAux sep s.data []

/-- `MagicKeyboard.MODIFIERS` (source lines 720-734): alias table from
modifier names to key codes; the generic names map to the LEFT
variants. -/
def MODIFIERS : List (String × Nat) :=
  [("ctrl", 29), ("left_ctrl", 29), ("right_ctrl", 97),
   ("shift", 42), ("left_shift", 42), ("right_shift", 54),
   ("alt", 56), ("left_alt", 56), ("right_alt", 100),
   ("meta", 125), ("left_meta", 125), ("right_meta", 126),
   ("caps_lock", 58)]

/-- `MagicKeyboard.normalize_key` (source lines 748-758): strip and
lowercase the name, look it up in the modifier alias table, otherwise
in the evdev key table as `KEY_<NAME>`; unknown names raise
(`none`). `ec` stands for `evdev.ecodes.ecodes.get`. -/
def normalizeKey (ec : String → Option Nat) (keyName : String) : Option Nat :=
  let k := strLower (strStrip keyName)
  match List.lookup k MODIFIERS with
  | some c => some c
  | none => ec ⟨"KEY_".data ++ (strUpper k).data⟩

/-- The resolution loop of `MagicKeyboard.split_key_combination`
(source lines 778-785): normalize every component, failing on the
first unknown name (Python raises `ValueError`). -/
def resolveKeys (ec : String → Option Nat) : List String → Option (List Nat)
  | [] => some []
  | c :: cs =>
    match normalizeKey ec c with
    | none => none
    | some code =>
      match resolveKeys ec cs with
      | none => none
      | some rest => some (code :: rest)

/-- `MagicKeyboard.split_key_combination` (source lines 770-797):
split on `+`, resolve each name, partition into modifier codes and
plain key codes, then validate: a source combination needs at least
one modifier, at least one key is always required, duplicate modifiers
(`len(set) != len(list)`) are rejected, and exactly one key is
required. Returns the modifier set (embedded as the dedup of the
modifier list) and the single key code. -/
def splitKeyCombination (ec : String → Option Nat) (comb : String)
    (is_src : Bool) : Option (List Nat × Nat) :=
  match resolveKeys ec ((splitChar '+' comb).map (fun c => strLower (strStrip c))) with
  | none => none
  | some codes =>
    let modifiers := codes.filter (fun c => isModifierCode c)
    let keys := codes.filter (fun c => !isModifierCode c)
    let modifiers_set := modifiers.dedup
    if is_src = true ∧ modifiers_set = [] then none
    else if keys = [] then none
    else if modifiers_set.length ≠ modifiers.length then none
    else if keys.length ≠ 1 then none
    else some (modifiers_set, keys.headD 0)

/-- A small stand-in for the evdev key table, holding just the plain
keys used by the concrete scenarios: KEY_I=23, KEY_A=30, KEY_J=36,
KEY_K=37, KEY_DOWN=108. -/
def ecSmall : String → Option Nat := fun s =>
  if s = "KEY_I" then some 23
  else if s = "KEY_A" then some 30
  else if s = "KEY_J" then some 36
  else if s = "KEY_K" then some 37
  else if s = "KEY_DOWN" then some 108
  else none

/-! ## The translation engine

`KeyboardMapping` keeps two Python dicts keyed by key code,
`_active_modifiers` and `_active_keys`, whose iteration order is
insertion order.  They are embedded as association lists with the
dict operations below. -/

/-- The bookkeeping record `ActiveKeyInfo` (source lines 360-365),
without the behaviourally inert timestamp. -/
structure ActiveKeyInfo where
  state : KeyState
  count : Nat
  send_out : Bool
deriving DecidableEq, Repr

/-- An insertion-ordered dict from key codes to `ActiveKeyInfo`. -/
abbrev KeyDict := List (Nat × ActiveKeyInfo)

/-- Python `d[k] = v`: replace in place if present, else append. -/
def alSet : KeyDict → Nat → ActiveKeyInfo → KeyDict
  | [], k, v => [(k, v)]
  | p :: ps, k, v => if p.1 = k then (k, v) :: ps else p :: alSet ps k v

/-- Python `d.pop(k, None)`: drop the entry with key `k`, if any. -/
def alErase : KeyDict → Nat → KeyDict
  | [], _ => []
  | p :: ps, k => if p.1 = k then ps else p :: alErase ps k

/-- Python `d.get(k)`. -/
def alGet : KeyDict → Nat → Option ActiveKeyInfo
  | [], _ => none
  | p :: ps, k => if p.1 = k then some p.2 else alGet ps k

/-- Python `list(d)` / `set(d)`: the keys in insertion order. -/
def alKeys (l : KeyDict) : List Nat := l.map (fun p => p.1)

/-- The modifier update of `handle_pre_match_pressed_modifier` (source
lines 547-552): `setdefault(k, ActiveKeyInfo(state, t, 0))`, then
`count += 1` and `send_out = True` on the (possibly pre-existing)
entry; an existing entry keeps its recorded state. -/
def alBump : KeyDict → Nat → KeyState → KeyDict
  | [], k, ks => [(k, ⟨ks, 1, true⟩)]
  | p :: ps, k, ks =>
    if p.1 = k then (k, ⟨p.2.state, p.2.count + 1, true⟩) :: ps
    else p :: alBump ps k ks

/-- The full state of one `KeyboardMapping` engine. -/
structure EngState where
  mode : Mode
  activeModifiers : KeyDict
  activeKeys : KeyDict
deriving DecidableEq, Repr

/-- Initial engine state (source `__init__`, lines 393-400). -/
def initState : EngState := ⟨.PRE_MATCH_INIT, [], []⟩

/-- Fixed per-engine context: the rule list, the focused window
snapshot, and the abstract `re.search`. -/
structure EngCtx where
  rules : List KeyMapping
  win : Window
  search : String → String → Bool

/-- `KeyboardMapping.match` (source lines 440-447): first rule in
declaration order whose `is_match` holds. -/
def matchRule (ctx : EngCtx) (mods : List Nat) (key : Nat) : Option KeyMapping :=
  ctx.rules.find? (fun r => isMatch ctx.search r mods key ctx.win)

/-- The rule chosen by `try_match_key` at state `st` for key `k`
(source line 509): matched against the keys of `_active_modifiers`. -/
def tmMatch (ctx : EngCtx) (st : EngState) (k : Nat) : Option KeyMapping :=
  matchRule ctx (alKeys st.activeModifiers) k

/-- `dst_modifiers` selected by `try_match_key` (source lines 517-523):
the rule's destination modifiers if matched, else the currently active
modifier set (pass-through). -/
def tmDstMods (ctx : EngCtx) (st : EngState) (k : Nat) : List Nat :=
  match tmMatch ctx st k with
  | none => alKeys st.activeModifiers
  | some r => r.dst_modifiers

/-- `dst_key` selected by `try_match_key` (source lines 517-524). -/
def tmDstKey (ctx : EngCtx) (st : EngState) (k : Nat) : Nat :=
  match tmMatch ctx st k with
  | none => k
  | some r => r.dst_key

/-- The state entered by `try_match_key` (source lines 520, 525). -/
def tmMode (ctx : EngCtx) (st : EngState) (k : Nat) : Mode :=
  match tmMatch ctx st k with
  | none => .UNMATCHED
  | some _ => .MATCHED

/-- `KeyboardMapping.try_match_key` (source lines 507-541), called on
a non-modifier DOWN/HOLD.  When coming from PRE_MATCH_PRESSED_MODIFIER
it reconciles the emitted modifiers against `dst_modifiers` (UP for
emitted modifiers outside the destination set, DOWN for destination
modifiers not already emitted); from MATCHED/UNMATCHED (overlap) it
emits a DOWN for every destination modifier.  It then emits a
completed `dst_key` DOWN/UP tap followed by an UP for every
destination modifier. -/
def tryMatchKey (ctx : EngCtx) (st : EngState) (k : Nat) :
    EngState × List KeyEv :=
  let dstMods := tmDstMods ctx st k
  let dstKey := tmDstKey ctx st k
  let out1 : List KeyEv :=
    if st.mode = .PRE_MATCH_PRESSED_MODIFIER then
      ((st.activeModifiers.filter
          (fun p => p.2.send_out && !(dstMods.contains p.1))).map
        (fun p => (p.1, KeyState.up)))
      ++ ((dstMods.filter (fun m =>
            !(match alGet st.activeModifiers m with
              | some i => i.send_out
              | none => false))).map
          (fun m => (m, KeyState.down)))
    else
      dstMods.map (fun m => (m, KeyState.down))
  ({ st with mode := tmMode ctx st k },
   out1 ++ [(dstKey, KeyState.down), (dstKey, KeyState.up)]
        ++ dstMods.map (fun m => (m, KeyState.up)))

/-- `KeyboardMapping.handle_pre_match_init` (source lines 449-482):
a DOWN/HOLD is recorded and forwarded (modifiers with `send_out=True`)
and the state advances; any UP is logged and dropped. -/
def handlePreMatchInit (st : EngState) (k : Nat) (ks : KeyState)
    (isMod : Bool) : EngState × List KeyEv :=
  if isMod = false then
    if ks = .down ∨ ks = .hold then
      ({ st with activeKeys := alSet st.activeKeys k ⟨ks, 1, false⟩,
                 mode := .PRE_MATCH_PRESSED_KEY }, [(k, ks)])
    else (st, [])
  else
    if ks = .down ∨ ks = .hold then
      ({ st with activeModifiers := alSet st.activeModifiers k ⟨ks, 1, true⟩,
                 mode := .PRE_MATCH_PRESSED_MODIFIER }, [(k, ks)])
    else (st, [])

/-- `KeyboardMapping.handle_pre_match_pressed_key` (source lines
484-505): modifiers are dropped; plain keys are recorded/forgotten and
forwarded verbatim, returning to PRE_MATCH_INIT when the last key is
released. -/
def handlePreMatchPressedKey (st : EngState) (k : Nat) (ks : KeyState)
    (isMod : Bool) : EngState × List KeyEv :=
  if isMod then (st, [])
  else if ks = .down ∨ ks = .hold then
    ({ st with activeKeys := alSet st.activeKeys k ⟨ks, 1, false⟩ }, [(k, ks)])
  else
    let keys' := alErase st.activeKeys k
    ({ st with activeKeys := keys',
               mode := if keys' = [] then .PRE_MATCH_INIT else st.mode },
     [(k, ks)])

/-- `KeyboardMapping.handle_pre_match_pressed_modifier` (source lines
543-575): modifier events are recorded (insert-or-bump / pop) and
forwarded verbatim, returning to PRE_MATCH_INIT when no modifier
remains; a non-modifier DOWN/HOLD is recorded and triggers
`try_match_key`; a non-modifier UP is dropped. -/
def handlePreMatchPressedModifier (ctx : EngCtx) (st : EngState) (k : Nat)
    (ks : KeyState) (isMod : Bool) : EngState × List KeyEv :=
  if isMod then
    let mods' := if ks = .down ∨ ks = .hold
      then alBump st.activeModifiers k ks
      else alErase st.activeModifiers k
    ({ st with activeModifiers := mods',
               mode := if mods' = [] then .PRE_MATCH_INIT else st.mode },
     [(k, ks)])
  else
    if ks = .down ∨ ks = .hold then
      tryMatchKey ctx { st with activeKeys := alSet st.activeKeys k ⟨ks, 1, false⟩ } k
    else (st, [])

/-- `KeyboardMapping.handle_matched_or_unmated` (source lines 577-605):
modifier events only update `_active_modifiers` (nothing is emitted); a
non-modifier DOWN/HOLD re-enters `try_match_key` (overlap); a
non-modifier UP only forgets the key (nothing is emitted); finally the
engine returns to PRE_MATCH_INIT when both dicts are empty. -/
def handleMatchedOrUnmated (ctx : EngCtx) (st : EngState) (k : Nat)
    (ks : KeyState) (isMod : Bool) : EngState × List KeyEv :=
  let r :=
    if isMod then
      if ks = .down ∨ ks = .hold then
        ({ st with activeModifiers := alSet st.activeModifiers k ⟨ks, 1, false⟩ },
         ([] : List KeyEv))
      else
        ({ st with activeModifiers := alErase st.activeModifiers k }, [])
    else
      if ks = .down ∨ ks = .hold then
        tryMatchKey ctx { st with activeKeys := alSet st.activeKeys k ⟨ks, 1, false⟩ } k
      else
        ({ st with activeKeys := alErase st.activeKeys k }, [])
  (if r.1.activeModifiers = [] ∧ r.1.activeKeys = []
   then { r.1 with mode := .PRE_MATCH_INIT } else r.1, r.2)

/-- `KeyboardMapping.handle_input_event` for an EV_KEY event (source
lines 607-641): dispatch on the engine state. -/
def stepEngine (ctx : EngCtx) (st : EngState) (ev : KeyEv) :
    EngState × List KeyEv :=
  let isMod := isModifierCode ev.1
  match st.mode with
  | .PRE_MATCH_INIT => handlePreMatchInit st ev.1 ev.2 isMod
  | .PRE_MATCH_PRESSED_KEY => handlePreMatchPressedKey st ev.1 ev.2 isMod
  | .PRE_MATCH_PRESSED_MODIFIER =>
    handlePreMatchPressedModifier ctx st ev.1 ev.2 isMod
  | _ => handleMatchedOrUnmated ctx st ev.1 ev.2 isMod

/-- One fold step of the event pump: feed one event, append its
emitted batch. -/
def engStep (ctx : EngCtx) (acc : EngState × List KeyEv) (ev : KeyEv) :
    EngState × List KeyEv :=
  let r := stepEngine ctx acc.1 ev
  (r.1, acc.2 ++ r.2)

/-- Run the engine from its initial state over a whole input stream,
collecting every event written to the virtual device. -/
def runEngine (ctx : EngCtx) (evs : List KeyEv) : EngState × List KeyEv :=
  evs.foldl (engStep ctx) (initState, [])

/-! ### Concrete scenario: the spec's rule set
`ctrl+i -> ctrl+a`, `alt+j -> down` (KEY_LEFTCTRL=29, KEY_I=23,
KEY_A=30, KEY_LEFTALT=56, KEY_J=36, KEY_DOWN=108). -/

/-- An always-empty predicate dict. -/
def emptyDict : MatchDict := ⟨none, none, false⟩

/-- The rule `ctrl+i -> ctrl+a` with no window predicate. -/
def ruleCtrlI : KeyMapping := ⟨[29], 23, [29], 30, emptyDict, emptyDict, emptyDict, emptyDict⟩

/-- The rule `alt+j -> down` with no window predicate. -/
def ruleAltJ : KeyMapping := ⟨[56], 36, [], 108, emptyDict, emptyDict, emptyDict, emptyDict⟩

/-- An empty focused-window snapshot. -/
def winEmpty : Window := ⟨"", ""⟩

/-- A degenerate `re.search` model; never consulted when the window is
empty. -/
def searchNone : String → String → Bool := fun _ _ => false

/-- The engine context used by the concrete end-to-end scenarios. -/
def ctx0 : EngCtx := ⟨[ruleCtrlI, ruleAltJ], winEmpty, searchNone⟩

/-! ## Device binding: grab / ungrab

`KeyboardMapping.grab`/`ungrab` (source lines 651-716) interact with
the evdev layer.  That layer is modelled by `DevWorld`: opening a
device yields a fresh file handle (`nextFd`); the kernel's exclusive
grab (`EVIOCGRAB 1`) fails with EBUSY iff any open handle already
holds the grab (`grabHolder`), and releasing (`EVIOCGRAB 0`) succeeds
only for the handle that holds it, else raises (EINVAL). -/

/-- The modelled evdev world: device presence, which handle (if any)
holds the exclusive grab, and the next fresh handle id. -/
structure DevWorld where
  present : Bool
  grabHolder : Option Nat
  nextFd : Nat
deriving DecidableEq, Repr

/-- The device-related state of one `KeyboardMapping` binding:
`input_device`, `output_device` (as a liveness flag), `_async_task`
(as a liveness flag) and the engine state that gates `ungrab`. -/
structure BindingSt where
  inputDevice : Option Nat
  outputDevice : Bool
  task : Bool
  mode : Mode
deriving DecidableEq, Repr

/-- `KeyboardMapping.ungrab` (source lines 688-716): refused unless
the engine is in PRE_MATCH_INIT; then the input handle is ungrabbed
and closed (an `OSError`, raised when the handle does not hold the
grab, is caught and reported as `False` with the handle kept); then
the output device is closed and the pump task cancelled.  Returns
(world, binding, success). -/
def doUngrab (w : DevWorld) (b : BindingSt) : DevWorld × BindingSt × Bool :=
  if b.mode ≠ Mode.PRE_MATCH_INIT then (w, b, false)
  else if b.inputDevice = none then
    (w, { b with outputDevice := false, task := false }, true)
  else if w.grabHolder = b.inputDevice then
    ({ w with grabHolder := none },
     { b with inputDevice := none, outputDevice := false, task := false },
     true)
  else (w, b, false)

/-- `KeyboardMapping.grab` (source lines 651-686): when the device is
absent, fall back to `ungrab` (line 657); otherwise open a fresh
handle, store it in `input_device` (line 660), and attempt the
exclusive grab — on EBUSY the `OSError` is caught and `grab` returns
early (lines 662-666) with the fresh, non-grabbing handle still
stored; on success the virtual output device is created and the pump
task started. -/
def doGrab (w : DevWorld) (b : BindingSt) : DevWorld × BindingSt :=
  if w.present = false then
    let r := doUngrab w b
    (r.1, r.2.1)
  else
    let fd := w.nextFd
    let w1 : DevWorld := { w with nextFd := w.nextFd + 1 }
    let b1 : BindingSt := { b with inputDevice := some fd }
    if w1.grabHolder.isSome then (w1, b1)
    else
      ({ w1 with grabHolder := some fd },
       { b1 with outputDevice := true, task := true })

/-- A fresh world with the physical device present and ungrabbed. -/
def w0 : DevWorld := ⟨true, none, 0⟩

/-- A fresh binding: nothing open, engine idle. -/
def b0 : BindingSt := ⟨none, false, false, .PRE_MATCH_INIT⟩

/-- The world and binding after one `grab()` from scratch. -/
def grabOnce : DevWorld × BindingSt := doGrab w0 b0

/-- The world and binding after `grab(); grab()` from scratch. -/
def grabTwice : DevWorld × BindingSt := doGrab grabOnce.1 grabOnce.2

/-! ## grab() capability computation (source lines 670-684)

`grab` builds `caps_ev_key` as the union of the physical device's
EV_KEY capabilities with every key code referenced by the binding's
rules and stores it into the local dict `caps` — but then creates the
virtual device with `evdev.UInput.from_device(self.input_device, ...)`,
which mirrors only the physical device's capabilities; the computed
union is never passed to the UInput constructor. -/

/-- The union computed into `caps[EV_KEY]` (source lines 674-681). -/
def grabKeyCapsUnion (physCaps : List Nat) (rules : List KeyMapping) : Finset Nat :=
  rules.foldl
    (fun acc r =>
      (((acc ∪ r.src_modifiers.toFinset) ∪ {r.src_key}) ∪ r.dst_modifiers.toFinset)
        ∪ {r.dst_key})
    physCaps.toFinset

/-- The EV_KEY capabilities the virtual device is actually created
with: `UInput.from_device(self.input_device, ...)` (source lines
682-684) mirrors the physical device only. -/
def virtualKeyCaps (physCaps : List Nat) : Finset Nat := physCaps.toFinset

/-- EV_KEY capabilities of a physical keyboard that has the keys used
by the scenario rules but lacks KEY_DOWN (108). -/
def physCapsC5 : List Nat := [29, 56, 23, 36, 30, 37]

/-! ## Supervisor shutdown (source lines 870-888)

`MagicKeyboard.shutdown(tried_count)` gives up (stopping the loop)
once `tried_count > 3`; otherwise it evaluates
`all(km.ungrab() for km in self.keyboard_mappings)` — a generator, so
`all` stops calling `ungrab` at the first binding that returns
`False` — and either stops the loop (all succeeded) or re-schedules
itself via `call_later(0.1, shutdown, tried_count + 1)`. -/

/-- Indices of the bindings whose `ungrab()` is actually invoked by
`all(<generator>)`, given each binding's ungrab outcome: the prefix up
to and including the first failure. -/
def scCallsAux : List Bool → Nat → List Nat
  | [], _ => []
  | b :: rest, i => if b then i :: scCallsAux rest (i + 1) else [i]

/-- Per-round ungrab call set of `shutdown` (source line 879). -/
def scCalls (bs : List Bool) : List Nat := scCallsAux bs 0

/-- The value of `all(...)` (independent of short-circuiting). -/
def allGen (bs : List Bool) : Bool := bs.all id

/-- The retry delay passed to `call_later` (source line 887), in
seconds. -/
def retryDelaySeconds : ℚ := 1 / 10

/-- Observable trace of a shutdown run: the ungrab-call set of every
round, and whether the loop was stopped by exhausting the retry budget
(`tried_count > 3`) rather than by a fully successful round. -/
structure ShutdownTrace where
  rounds : List (List Nat)
  forced : Bool
deriving DecidableEq, Repr

/-- The recursion of `shutdown`, structural in the number of rounds
still permitted by the retry budget (`4 - tried_count`); zero
remaining rounds is exactly the source's `tried_count > 3` forced
stop. -/
def shutdownFuel (bs : List Bool) : Nat → ShutdownTrace
  | 0 => ⟨[], true⟩
  | n + 1 =>
    if allGen bs then ⟨[scCalls bs], false⟩
    else
      let t := shutdownFuel bs n
      ⟨scCalls bs :: t.rounds, t.forced⟩

/-- `MagicKeyboard.shutdown` (source lines 870-888), with each
binding's ungrab outcome held fixed across rounds: a call with
`tried_count = tried` has `4 - tried` rounds of budget left. -/
def shutdownModel (bs : List Bool) (tried : Nat) : ShutdownTrace :=
  shutdownFuel bs (4 - tried)

/-- The engine state after `ctrl DOWN, i DOWN` under the scenario rule
set: a fired `ctrl+i -> ctrl+a` chord still held. -/
def stC1 : EngState := (runEngine ctx0 [(29, .down), (23, .down)]).1

/-! ## The DOWN/UP balance invariant (claim C4)

`openDowns out` is the set of key codes whose last virtual DOWN has
not yet been answered by a virtual UP in the emitted stream `out`. -/

/-- Effect of one emitted event on the set of open virtual DOWNs. -/
def stepDown (s : Finset Nat) (e : KeyEv) : Finset Nat :=
  match e.2 with
  | .down => insert e.1 s
  | .up => s.erase e.1
  | .hold => s

/-- The set of key codes with an unanswered virtual DOWN in `l`. -/
def openDowns (l : List KeyEv) : Finset Nat := l.foldl stepDown ∅

/-- The engine invariant tying the emitted stream's open DOWNs `E` to
the engine state: idle means everything is closed; while plain keys
are held the open DOWNs are among the held keys; while modifiers are
held they are among the held (all forwarded) modifiers; and once a
chord has fired everything has already been closed by the resolution
batch. -/
def EngInv (st : EngState) (E : Finset Nat) : Prop :=
  (st.mode = Mode.PRE_MATCH_INIT →
    st.activeModifiers = [] ∧ st.activeKeys = [] ∧ E = ∅)
  ∧ (st.mode = Mode.PRE_MATCH_PRESSED_KEY →
      st.activeModifiers = [] ∧ E ⊆ (alKeys st.activeKeys).toFinset)
  ∧ (st.mode = Mode.PRE_MATCH_PRESSED_MODIFIER →
      st.activeKeys = [] ∧ E ⊆ (alKeys st.activeModifiers).toFinset
      ∧ ∀ p ∈ st.activeModifiers, p.2.send_out = true)
  ∧ ((st.mode = Mode.MATCHED ∨ st.mode = Mode.UNMATCHED) → E = ∅)

/-! ## Theorems -/

/-- Claim C2 counterexample: with the rules `ctrl+i -> ctrl+a` and
`alt+j -> down`, the input `alt DOWN, j DOWN, j UP, j DOWN, j UP,
alt UP` does not produce the claimed output `alt DOWN, down DOWN,
down UP, down DOWN, down UP, alt UP`. -/
theorem c2_counterexample :
    (runEngine ctx0 [(56, .down), (36, .down), (36, .up), (36, .down), (36, .up), (56, .up)]).2
    ≠ [(56, .down), (108, .down), (108, .up), (108, .down), (108, .up), (56, .up)] := by
  decide

/-- Claim C2 (amended): the same input produces `alt DOWN, alt UP,
down DOWN, down UP, down DOWN, down UP` — the alt UP is synthesized at
the first chord resolution because the rule's destination has no
modifiers, and the physical alt UP at the end emits nothing. -/
theorem c2_amended_thm :
    (runEngine ctx0 [(56, .down), (36, .down), (36, .up), (36, .down), (36, .up), (56, .up)]).2
    = [(56, .down), (56, .up), (108, .down), (108, .up), (108, .down), (108, .up)] := by
  decide

/-- Claim C1 counterexample: after `ctrl DOWN, i DOWN` the engine is
MATCHED and has already emitted `a UP` and `ctrl UP` (the whole batch
is `ctrl DOWN, a DOWN, a UP, ctrl UP`); when the physical trigger's
`i UP` then arrives the engine emits nothing at all, not the claimed
destination-key UP followed by modifier UPs. -/
theorem c1_counterexample :
    stC1.mode = Mode.MATCHED
    ∧ (runEngine ctx0 [(29, .down), (23, .down)]).2
      = [(29, .down), (30, .down), (30, .up), (29, .up)]
    ∧ (stepEngine ctx0 stC1 (23, KeyState.up)).2 = [] := by
  decide

/-- Claim C1 (amended): once a chord has fired, the physical trigger's
UP emits nothing; the destination key's UP (immediately after its
DOWN, as a completed tap) and the destination-modifier UPs are instead
emitted already during chord resolution, at the trigger's DOWN/HOLD. -/
theorem c1_amended_thm (ctx : EngCtx) (st : EngState) (k : Nat)
    (h : st.mode = Mode.MATCHED ∨ st.mode = Mode.UNMATCHED)
    (hk : isModifierCode k = false) :
    (stepEngine ctx st (k, KeyState.up)).2 = []
    ∧ ∀ st2 k2 ks2, isModifierCode k2 = false →
        (ks2 = KeyState.down ∨ ks2 = KeyState.hold) →
        (st2.mode = Mode.PRE_MATCH_PRESSED_MODIFIER ∨ st2.mode = Mode.MATCHED
          ∨ st2.mode = Mode.UNMATCHED) →
        ∃ pre, (stepEngine ctx st2 (k2, ks2)).2
          = pre ++ [(tmDstKey ctx st2 k2, KeyState.down), (tmDstKey ctx st2 k2, KeyState.up)]
            ++ (tmDstMods ctx st2 k2).map (fun m => (m, KeyState.up)) := by
  constructor
  · rcases h with h | h <;>
      simp [stepEngine, h, handleMatchedOrUnmated, hk]
  · intro st2 k2 ks2 hk2 hks2 hm2
    rcases hm2 with hm2 | hm2 | hm2 <;>
      simp only [stepEngine, hm2, handlePreMatchPressedModifier,
        handleMatchedOrUnmated, hk2, Bool.false_eq_true, if_false, if_pos hks2,
        tryMatchKey] <;>
      exact ⟨_, rfl⟩

/-- Claim C1 witness: the amended statement at the concrete MATCHED
state reached by `ctrl DOWN, i DOWN`. -/
theorem c1_witness :
    (stepEngine ctx0 stC1 (23, KeyState.up)).2 = []
    ∧ ∀ st2 k2 ks2, isModifierCode k2 = false →
        (ks2 = KeyState.down ∨ ks2 = KeyState.hold) →
        (st2.mode = Mode.PRE_MATCH_PRESSED_MODIFIER ∨ st2.mode = Mode.MATCHED
          ∨ st2.mode = Mode.UNMATCHED) →
        ∃ pre, (stepEngine ctx0 st2 (k2, ks2)).2
          = pre ++ [(tmDstKey ctx0 st2 k2, KeyState.down), (tmDstKey ctx0 st2 k2, KeyState.up)]
            ++ (tmDstMods ctx0 st2 k2).map (fun m => (m, KeyState.up)) :=
  c1_amended_thm ctx0 stC1 23 (Or.inl (by decide)) (by decide)

/-- Claim C3 counterexample: in the MATCHED state reached by
`ctrl DOWN, i DOWN`, the trigger's autorepeat `i HOLD` emits
`ctrl DOWN, a DOWN, a UP, ctrl UP` — a full synthesized tap — and no
HOLD of the destination key. -/
theorem c3_counterexample :
    (stepEngine ctx0 stC1 (23, KeyState.hold)).2
      = [(29, .down), (30, .down), (30, .up), (29, .up)]
    ∧ ((30 : Nat), KeyState.hold) ∉ (stepEngine ctx0 stC1 (23, KeyState.hold)).2 := by
  decide

/-- Claim C3 (amended): autorepeat (HOLD) of a non-modifier key while
MATCHED re-enters chord resolution: the engine emits DOWNs of the
destination modifiers, a destination-key DOWN/UP pair and the
destination-modifier UPs, and never forwards any HOLD event. -/
theorem c3_amended_thm (ctx : EngCtx) (st : EngState) (k : Nat)
    (h : st.mode = Mode.MATCHED) (hk : isModifierCode k = false) :
    (stepEngine ctx st (k, KeyState.hold)).2
      = (tmDstMods ctx st k).map (fun m => (m, KeyState.down))
        ++ [(tmDstKey ctx st k, KeyState.down), (tmDstKey ctx st k, KeyState.up)]
        ++ (tmDstMods ctx st k).map (fun m => (m, KeyState.up))
    ∧ ∀ e ∈ (stepEngine ctx st (k, KeyState.hold)).2, e.2 ≠ KeyState.hold := by
  have hout : (stepEngine ctx st (k, KeyState.hold)).2
      = (tmDstMods ctx st k).map (fun m => (m, KeyState.down))
        ++ [(tmDstKey ctx st k, KeyState.down), (tmDstKey ctx st k, KeyState.up)]
        ++ (tmDstMods ctx st k).map (fun m => (m, KeyState.up)) := by
    simp only [stepEngine, h, handleMatchedOrUnmated, hk, tryMatchKey,
      Bool.false_eq_true, if_false, if_pos (Or.inr rfl : KeyState.hold = KeyState.down
        ∨ KeyState.hold = KeyState.hold)]
    exact rfl
  refine ⟨hout, ?_⟩
  intro e he
  rw [hout] at he
  simp only [List.mem_append, List.mem_map, List.mem_cons, List.not_mem_nil,
    or_false] at he
  rcases he with (⟨m, _, rfl⟩ | rfl | rfl) | ⟨m, _, rfl⟩ <;> simp

/-- Claim C3 witness: the amended statement at the concrete MATCHED
state reached by `ctrl DOWN, i DOWN`. -/
theorem c3_witness :
    (stepEngine ctx0 stC1 (23, KeyState.hold)).2
      = (tmDstMods ctx0 stC1 23).map (fun m => (m, KeyState.down))
        ++ [(tmDstKey ctx0 stC1 23, KeyState.down), (tmDstKey ctx0 stC1 23, KeyState.up)]
        ++ (tmDstMods ctx0 stC1 23).map (fun m => (m, KeyState.up))
    ∧ ∀ e ∈ (stepEngine ctx0 stC1 (23, KeyState.hold)).2, e.2 ≠ KeyState.hold :=
  c3_amended_thm ctx0 stC1 23 (by decide) (by decide)

/-- Claim C5: `grab()` computes the union of the physical EV_KEY
capabilities with every rule-referenced code (here containing KEY_DOWN
= 108, the destination of `alt+j -> down`), but the virtual device is
created by `UInput.from_device` from the physical device alone, so it
lacks 108 and does not equal the computed union. -/
theorem c5_thm :
    108 ∈ grabKeyCapsUnion physCapsC5 [ruleCtrlI, ruleAltJ]
    ∧ 108 ∉ virtualKeyCaps physCapsC5
    ∧ virtualKeyCaps physCapsC5 ≠ grabKeyCapsUnion physCapsC5 [ruleCtrlI, ruleAltJ] := by
  decide

/-- Claim C6 counterexample: two bindings, the first of which cannot
be ungrabbed: every one of the four rounds calls `ungrab` only on
binding 0 — binding 1 is never called, because `all(<generator>)`
short-circuits at the first `False`. -/
theorem c6_counterexample :
    (shutdownModel [false, true] 0).rounds = [[0], [0], [0], [0]]
    ∧ ∀ r ∈ (shutdownModel [false, true] 0).rounds, (1 : Nat) ∉ r := by
  decide

/-- Claim C6 (amended): each shutdown round calls `ungrab` on the
bindings in order only up to and including the first failure
(`all` over a generator short-circuits); on failure a retry runs after
0.1 s, for at most 4 rounds in total, after which the loop is stopped
regardless. -/
theorem c6_amended_thm (bs : List Bool) :
    (allGen bs = true → shutdownModel bs 0 = ⟨[scCalls bs], false⟩)
    ∧ (allGen bs = false →
        shutdownModel bs 0 = ⟨[scCalls bs, scCalls bs, scCalls bs, scCalls bs], true⟩)
    ∧ (∀ rest : List Bool, scCalls (false :: rest) = [0])
    ∧ retryDelaySeconds = 1 / 10 := by
  refine ⟨?_, ?_, ?_, rfl⟩
  · intro h
    simp [shutdownModel, shutdownFuel, h]
  · intro h
    simp [shutdownModel, shutdownFuel, h]
  · intro rest
    simp [scCalls, scCallsAux]

/-- Claim C6 witness: the amended statement at the concrete binding
list `[false, true]`. -/
theorem c6_witness :
    shutdownModel [false, true] 0
      = ⟨[scCalls [false, true], scCalls [false, true], scCalls [false, true],
          scCalls [false, true]], true⟩ :=
  (c6_amended_thm [false, true]).2.1 (by decide)

/-- Claim C7 counterexample: from a fresh present device, `grab()`
twice does not leave the binding in the single-`grab()` state: the
second call rebinds `input_device` to a fresh handle whose exclusive
grab failed (EBUSY), the grab stays with the orphaned first handle,
and a subsequent `ungrab()` fails where it succeeds after a single
`grab()`. -/
theorem c7_counterexample :
    grabTwice.2 ≠ grabOnce.2
    ∧ (doUngrab grabTwice.1 grabTwice.2).2.2 = false
    ∧ (doUngrab grabOnce.1 grabOnce.2).2.2 = true := by
  decide

/-- Claim C7 (amended): `ungrab()` is idempotent — a second call
changes nothing and returns the same value — but `grab()` is not:
after `grab(); grab()` the binding's `input_device` is a fresh handle
(id 1) while the exclusive grab is still held by the orphaned first
handle (id 0). -/
theorem c7_amended_thm :
    (∀ (w : DevWorld) (b : BindingSt),
      (doUngrab (doUngrab w b).1 (doUngrab w b).2.1).1 = (doUngrab w b).1
      ∧ (doUngrab (doUngrab w b).1 (doUngrab w b).2.1).2.1 = (doUngrab w b).2.1
      ∧ (doUngrab (doUngrab w b).1 (doUngrab w b).2.1).2.2 = (doUngrab w b).2.2)
    ∧ grabTwice.2.inputDevice = some 1
    ∧ grabTwice.1.grabHolder = some 0
    ∧ grabOnce.2.inputDevice = some 0
    ∧ grabOnce.1.grabHolder = some 0 := by
  refine ⟨?_, by decide, by decide, by decide, by decide⟩
  intro w b
  by_cases h1 : b.mode = Mode.PRE_MATCH_INIT
  · by_cases h2 : b.inputDevice = none
    · simp [doUngrab, h1, h2]
    · by_cases h3 : w.grabHolder = b.inputDevice
      · simp [doUngrab, h1, h2, h3]
      · simp [doUngrab, h1, h2, h3]
  · simp [doUngrab, h1]

/-- Claim C10: the generic aliases `ctrl`, `shift`, `alt`, `meta` all
normalize to the LEFT-variant key codes; rule matching compares the
exact active modifier set against `src_modifiers` (and the key and the
window predicate); consequently the rule `ctrl+i -> ctrl+a`, whose
source modifiers are `{KEY_LEFTCTRL}`, never matches when the active
modifier set is `{KEY_RIGHTCTRL}`. -/
theorem c10_thm :
    (∀ ec, normalizeKey ec "ctrl" = some 29 ∧ normalizeKey ec "shift" = some 42
      ∧ normalizeKey ec "alt" = some 56 ∧ normalizeKey ec "meta" = some 125)
    ∧ (∀ (search : String → String → Bool) (r : KeyMapping) (mods : List Nat)
        (k : Nat) (w : Window),
        isMatch search r mods k w
          = (pySetEq r.src_modifiers mods && (r.src_key == k)
              && winPredicate search r w))
    ∧ (∀ (search : String → String → Bool) (k : Nat) (w : Window),
        isMatch search ruleCtrlI [97] k w = false) := by
  refine ⟨fun ec => ⟨rfl, rfl, rfl, rfl⟩, fun _ _ _ _ _ => rfl, ?_⟩
  intro search k w
  have h : pySetEq ruleCtrlI.src_modifiers [97] = false := by decide
  simp [isMatch, h]

/-! ### Helper lemmas for the C4 invariant proof -/

theorem contains_eq_false_of_not_mem {x : Nat} {l : List Nat} (h : x ∉ l) :
    l.contains x = false := by
  simpa using h

theorem mem_alKeys_alSet {l : KeyDict} {k : Nat} {v : ActiveKeyInfo} {x : Nat} :
    x ∈ alKeys (alSet l k v) ↔ x = k ∨ x ∈ alKeys l := by
  induction l with
  | nil => simp [alSet, alKeys]
  | cons p t ih =>
    by_cases h : p.1 = k
    · simp [alSet, h, alKeys]
    · simp only [alSet, if_neg h, alKeys, List.map_cons, List.mem_cons]
      rw [show (List.map (fun p => p.1) (alSet t k v)) = alKeys (alSet t k v) from rfl]
      rw [ih]
      tauto

theorem mem_alKeys_alErase {l : KeyDict} {k x : Nat} (hx : x ≠ k)
    (h : x ∈ alKeys l) : x ∈ alKeys (alErase l k) := by
  induction l with
  | nil => simpa [alKeys] using h
  | cons p t ih =>
    simp only [alKeys, List.map_cons, List.mem_cons] at h
    by_cases hp : p.1 = k
    · simp only [alErase, if_pos hp]
      rcases h with h | h
      · exact absurd (h.trans hp) hx
      · exact h
    · simp only [alErase, if_neg hp, alKeys, List.map_cons, List.mem_cons]
      rcases h with h | h
      · exact Or.inl h
      · exact Or.inr (ih h)

theorem mem_alKeys_alBump {l : KeyDict} {k : Nat} {ks : KeyState} {x : Nat} :
    x ∈ alKeys (alBump l k ks) ↔ x = k ∨ x ∈ alKeys l := by
  induction l with
  | nil => simp [alBump, alKeys]
  | cons p t ih =>
    by_cases h : p.1 = k
    · simp [alBump, h, alKeys]
    · simp only [alBump, if_neg h, alKeys, List.map_cons, List.mem_cons]
      rw [show (List.map (fun p => p.1) (alBump t k ks)) = alKeys (alBump t k ks) from rfl]
      rw [ih]
      tauto

theorem alBump_send_out {l : KeyDict} {k : Nat} {ks : KeyState}
    (h : ∀ p ∈ l, p.2.send_out = true) :
    ∀ p ∈ alBump l k ks, p.2.send_out = true := by
  induction l with
  | nil => intro p hp; simp [alBump] at hp; subst hp; rfl
  | cons q t ih =>
    intro p hp
    by_cases hq : q.1 = k
    · simp only [alBump, if_pos hq, List.mem_cons] at hp
      rcases hp with hp | hp
      · subst hp; rfl
      · exact h p (List.mem_cons_of_mem q hp)
    · simp only [alBump, if_neg hq, List.mem_cons] at hp
      rcases hp with hp | hp
      · subst hp; exact h p (List.mem_cons_self p t)
      · exact ih (fun r hr => h r (List.mem_cons_of_mem q hr)) p hp

theorem alErase_subset {l : KeyDict} {k : Nat} : ∀ p ∈ alErase l k, p ∈ l := by
  induction l with
  | nil => intro p hp; simpa [alErase] using hp
  | cons q t ih =>
    intro p hp
    by_cases hq : q.1 = k
    · simp only [alErase, if_pos hq] at hp
      exact List.mem_cons_of_mem q hp
    · simp only [alErase, if_neg hq, List.mem_cons] at hp
      rcases hp with hp | hp
      · exact hp ▸ List.mem_cons_self q t
      · exact List.mem_cons_of_mem q (ih p hp)

theorem alBump_ne_nil (l : KeyDict) (k : Nat) (s : KeyState) :
    alBump l k s ≠ [] := by
  cases l with
  | nil => simp [alBump]
  | cons p t =>
    by_cases h : p.1 = k <;> simp [alBump, h]

theorem erase_subset_alErase {E : Finset Nat} {l : KeyDict} {k : Nat}
    (hE : E ⊆ (alKeys l).toFinset) :
    E.erase k ⊆ (alKeys (alErase l k)).toFinset := by
  intro x hx
  rw [Finset.mem_erase] at hx
  have hm := hE hx.2
  rw [List.mem_toFinset] at hm ⊢
  exact mem_alKeys_alErase hx.1 hm

theorem foldl_stepDown_ups (l : List Nat) (s : Finset Nat) :
    (l.map (fun m => (m, KeyState.up))).foldl stepDown s = s \ l.toFinset := by
  induction l generalizing s with
  | nil => simp
  | cons a t ih =>
    simp only [List.map_cons, List.foldl_cons, List.toFinset_cons]
    rw [ih]
    show s.erase a \ t.toFinset = _
    ext x
    simp only [Finset.mem_sdiff, Finset.mem_erase, Finset.mem_insert]
    tauto

theorem foldl_stepDown_downs (l : List Nat) (s : Finset Nat) :
    (l.map (fun m => (m, KeyState.down))).foldl stepDown s = s ∪ l.toFinset := by
  induction l generalizing s with
  | nil => simp
  | cons a t ih =>
    simp only [List.map_cons, List.foldl_cons, List.toFinset_cons]
    rw [ih]
    show insert a s ∪ t.toFinset = _
    ext x
    simp only [Finset.mem_union, Finset.mem_insert]
    tauto

theorem map_up_fst (l : List (Nat × ActiveKeyInfo)) :
    l.map (fun p => (p.1, KeyState.up))
      = (l.map (fun p => p.1)).map (fun m => (m, KeyState.up)) := by
  rw [List.map_map]
  rfl

theorem tap_sdiff {E1 : Finset Nat} {dk : Nat} {dst : Finset Nat}
    (h1 : E1 ⊆ dst) : ((insert dk E1).erase dk) \ dst = ∅ := by
  ext x
  simp only [Finset.mem_sdiff, Finset.mem_erase, Finset.mem_insert,
    Finset.not_mem_empty, iff_false, not_and, and_imp]
  intro hne hmem hnd
  rcases hmem with h | h
  · exact hne h
  · exact hnd (h1 h)

/-- Every chord-resolution batch closes all open DOWNs: starting from
the invariant of the state `try_match_key` runs in, the emitted batch
leaves no virtual key open. -/
theorem tryMatch_closes (ctx : EngCtx) (st : EngState) (k : Nat) (E : Finset Nat)
    (h : (st.mode = Mode.PRE_MATCH_PRESSED_MODIFIER
          ∧ E ⊆ (alKeys st.activeModifiers).toFinset
          ∧ ∀ p ∈ st.activeModifiers, p.2.send_out = true)
       ∨ (st.mode ≠ Mode.PRE_MATCH_PRESSED_MODIFIER ∧ E = ∅)) :
    (tryMatchKey ctx st k).2.foldl stepDown E = ∅ := by
  have hmid : ∀ (E1 : Finset Nat) (dk : Nat),
      List.foldl stepDown E1 [(dk, KeyState.down), (dk, KeyState.up)]
        = (insert dk E1).erase dk := fun _ _ => rfl
  simp only [tryMatchKey, List.foldl_append]
  rcases h with ⟨hm, hE, hso⟩ | ⟨hm, hE⟩
  · rw [if_pos hm]
    rw [List.foldl_append]
    rw [map_up_fst]
    rw [foldl_stepDown_ups, foldl_stepDown_downs, hmid, foldl_stepDown_ups]
    apply tap_sdiff
    intro x hx
    rcases Finset.mem_union.1 hx with hx | hx
    · rw [Finset.mem_sdiff] at hx
      obtain ⟨hxE, hxA⟩ := hx
      by_contra hxd
      apply hxA
      rw [List.mem_toFinset] at hxd ⊢
      have hxm := hE hxE
      rw [List.mem_toFinset] at hxm
      obtain ⟨p, hp, hpx⟩ := List.mem_map.1 hxm
      refine List.mem_map.2 ⟨p, List.mem_filter.2 ⟨hp, ?_⟩, hpx⟩
      rw [hso p hp, hpx, contains_eq_false_of_not_mem hxd]
      rfl
    · rw [List.mem_toFinset] at hx ⊢
      exact (List.mem_filter.1 hx).1
  · rw [if_neg hm]
    subst hE
    rw [foldl_stepDown_downs, hmid, foldl_stepDown_ups]
    apply tap_sdiff
    rw [Finset.empty_union]

theorem inv_init {st : EngState} {k : Nat} {ks : KeyState} {b : Bool} {E : Finset Nat}
    (hmods : st.activeModifiers = []) (hkeys : st.activeKeys = []) (hE : E = ∅) :
    EngInv (handlePreMatchInit st k ks b).1
      ((handlePreMatchInit st k ks b).2.foldl stepDown E) := by
  subst hE
  cases b <;> cases ks <;>
    simp [handlePreMatchInit, EngInv, hmods, hkeys, alSet, alKeys, stepDown]

theorem inv_pressed_key {st : EngState} {k : Nat} {ks : KeyState} {b : Bool}
    {E : Finset Nat} (hm : st.mode = Mode.PRE_MATCH_PRESSED_KEY)
    (hmods : st.activeModifiers = [])
    (hE : E ⊆ (alKeys st.activeKeys).toFinset) :
    EngInv (handlePreMatchPressedKey st k ks b).1
      ((handlePreMatchPressedKey st k ks b).2.foldl stepDown E) := by
  cases b with
  | true =>
    simp only [handlePreMatchPressedKey, if_pos rfl, List.foldl_nil]
    exact ⟨fun h => absurd (hm ▸ h) (by simp),
      fun _ => ⟨hmods, hE⟩,
      fun h => absurd (hm ▸ h) (by simp),
      fun h => absurd (hm ▸ h) (by simp)⟩
  | false =>
    cases ks with
    | down =>
      simp only [handlePreMatchPressedKey, EngInv, hm, List.foldl_cons, List.foldl_nil]
      refine ⟨by simp, fun _ => ⟨hmods, ?_⟩, by simp, by simp⟩
      intro x hx
      rcases Finset.mem_insert.1 hx with hx | hx
      · rw [List.mem_toFinset]
        exact mem_alKeys_alSet.2 (Or.inl hx)
      · have := hE hx
        rw [List.mem_toFinset] at this ⊢
        exact mem_alKeys_alSet.2 (Or.inr this)
    | hold =>
      simp only [handlePreMatchPressedKey, EngInv, hm, List.foldl_cons, List.foldl_nil]
      refine ⟨by simp, fun _ => ⟨hmods, ?_⟩, by simp, by simp⟩
      intro x hx
      have := hE hx
      rw [List.mem_toFinset] at this ⊢
      exact mem_alKeys_alSet.2 (Or.inr this)
    | up =>
      simp only [handlePreMatchPressedKey, EngInv, hm, List.foldl_cons, List.foldl_nil]
      by_cases hnil : alErase st.activeKeys k = []
      · simp only [hnil, if_pos rfl]
        have hsub : E.erase k ⊆ (alKeys (alErase st.activeKeys k)).toFinset :=
          erase_subset_alErase hE
        rw [hnil] at hsub
        simp only [alKeys, List.map_nil, List.toFinset_nil] at hsub
        have hz : stepDown E (k, KeyState.up) = ∅ := Finset.subset_empty.1 hsub
        simp [hz, hmods, hnil]
      · simp only [hnil, if_neg hnil, hm]
        refine ⟨by simp, fun _ => ⟨hmods, erase_subset_alErase hE⟩, by simp, by simp⟩

theorem engInv_INIT {st : EngState} {E : Finset Nat}
    (h1 : st.mode = Mode.PRE_MATCH_INIT) (h2 : st.activeModifiers = [])
    (h3 : st.activeKeys = []) (h4 : E = ∅) : EngInv st E := by
  refine ⟨fun _ => ⟨h2, h3, h4⟩, fun h => ?_, fun h => ?_, fun h => ?_⟩
  · rw [h1] at h; exact Mode.noConfusion h
  · rw [h1] at h; exact Mode.noConfusion h
  · rcases h with h | h <;> (rw [h1] at h; exact Mode.noConfusion h)

theorem engInv_PK {st : EngState} {E : Finset Nat}
    (h1 : st.mode = Mode.PRE_MATCH_PRESSED_KEY) (h2 : st.activeModifiers = [])
    (h3 : E ⊆ (alKeys st.activeKeys).toFinset) : EngInv st E := by
  refine ⟨fun h => ?_, fun _ => ⟨h2, h3⟩, fun h => ?_, fun h => ?_⟩
  · rw [h1] at h; exact Mode.noConfusion h
  · rw [h1] at h; exact Mode.noConfusion h
  · rcases h with h | h <;> (rw [h1] at h; exact Mode.noConfusion h)

theorem engInv_PPM {st : EngState} {E : Finset Nat}
    (h1 : st.mode = Mode.PRE_MATCH_PRESSED_MODIFIER) (h2 : st.activeKeys = [])
    (h3 : E ⊆ (alKeys st.activeModifiers).toFinset)
    (h4 : ∀ p ∈ st.activeModifiers, p.2.send_out = true) : EngInv st E := by
  refine ⟨fun h => ?_, fun h => ?_, fun _ => ⟨h2, h3, h4⟩, fun h => ?_⟩
  · rw [h1] at h; exact Mode.noConfusion h
  · rw [h1] at h; exact Mode.noConfusion h
  · rcases h with h | h <;> (rw [h1] at h; exact Mode.noConfusion h)

theorem engInv_MU {st : EngState} {E : Finset Nat}
    (h1 : st.mode = Mode.MATCHED ∨ st.mode = Mode.UNMATCHED) (h2 : E = ∅) :
    EngInv st E := by
  refine ⟨fun h => ?_, fun h => ?_, fun h => ?_, fun _ => h2⟩ <;>
    (rcases h1 with h1 | h1 <;> (rw [h1] at h; exact Mode.noConfusion h))

theorem inv_after_tryMatch {ctx : EngCtx} {st : EngState} {k : Nat} {E : Finset Nat}
    (h : (st.mode = Mode.PRE_MATCH_PRESSED_MODIFIER
          ∧ E ⊆ (alKeys st.activeModifiers).toFinset
          ∧ ∀ p ∈ st.activeModifiers, p.2.send_out = true)
       ∨ (st.mode ≠ Mode.PRE_MATCH_PRESSED_MODIFIER ∧ E = ∅)) :
    EngInv (tryMatchKey ctx st k).1 ((tryMatchKey ctx st k).2.foldl stepDown E) := by
  have hMU : (tryMatchKey ctx st k).1.mode = Mode.MATCHED
      ∨ (tryMatchKey ctx st k).1.mode = Mode.UNMATCHED := by
    show tmMode ctx st k = Mode.MATCHED ∨ tmMode ctx st k = Mode.UNMATCHED
    unfold tmMode
    rcases tmMatch ctx st k with _ | r
    · exact Or.inr rfl
    · exact Or.inl rfl
  exact engInv_MU hMU (tryMatch_closes ctx st k E h)

theorem tmMode_MU (ctx : EngCtx) (st : EngState) (k : Nat) :
    tmMode ctx st k = Mode.MATCHED ∨ tmMode ctx st k = Mode.UNMATCHED := by
  unfold tmMode
  rcases tmMatch ctx st k with _ | r
  · exact Or.inr rfl
  · exact Or.inl rfl

/-- Finishing step of `handle_matched_or_unmated`: the final
both-dicts-empty check either returns to PRE_MATCH_INIT or keeps a
MATCHED/UNMATCHED state; with everything closed the invariant holds
either way. -/
theorem engInv_finalize (t : EngState) {E : Finset Nat}
    (hmode : t.mode = Mode.MATCHED ∨ t.mode = Mode.UNMATCHED) (hE : E = ∅) :
    EngInv (if t.activeModifiers = [] ∧ t.activeKeys = []
            then { t with mode := Mode.PRE_MATCH_INIT } else t) E := by
  by_cases hc : t.activeModifiers = [] ∧ t.activeKeys = []
  · rw [if_pos hc]
    exact engInv_INIT rfl hc.1 hc.2 hE
  · rw [if_neg hc]
    exact engInv_MU hmode hE

theorem inv_ppm {ctx : EngCtx} {st : EngState} {k : Nat} {ks : KeyState} {b : Bool}
    {E : Finset Nat} (hm : st.mode = Mode.PRE_MATCH_PRESSED_MODIFIER)
    (hkeys : st.activeKeys = [])
    (hE : E ⊆ (alKeys st.activeModifiers).toFinset)
    (hso : ∀ p ∈ st.activeModifiers, p.2.send_out = true) :
    EngInv (handlePreMatchPressedModifier ctx st k ks b).1
      ((handlePreMatchPressedModifier ctx st k ks b).2.foldl stepDown E) := by
  cases b with
  | true =>
    cases ks with
    | down =>
      have hred : handlePreMatchPressedModifier ctx st k KeyState.down true
          = ({ st with
                activeModifiers := alBump st.activeModifiers k KeyState.down,
                mode := if alBump st.activeModifiers k KeyState.down = []
                    then Mode.PRE_MATCH_INIT else st.mode },
             [(k, KeyState.down)]) := rfl
      rw [hred,
        if_neg (alBump_ne_nil st.activeModifiers k KeyState.down)]
      refine engInv_PPM hm hkeys ?_ (alBump_send_out hso)
      intro x hx
      have hx' : x ∈ insert k E := hx
      rw [List.mem_toFinset]
      rcases Finset.mem_insert.1 hx' with h | h
      · exact mem_alKeys_alBump.2 (Or.inl h)
      · have := hE h
        rw [List.mem_toFinset] at this
        exact mem_alKeys_alBump.2 (Or.inr this)
    | hold =>
      have hred : handlePreMatchPressedModifier ctx st k KeyState.hold true
          = ({ st with
                activeModifiers := alBump st.activeModifiers k KeyState.hold,
                mode := if alBump st.activeModifiers k KeyState.hold = []
                    then Mode.PRE_MATCH_INIT else st.mode },
             [(k, KeyState.hold)]) := rfl
      rw [hred,
        if_neg (alBump_ne_nil st.activeModifiers k KeyState.hold)]
      refine engInv_PPM hm hkeys ?_ (alBump_send_out hso)
      intro x hx
      have hx' : x ∈ E := hx
      have := hE hx'
      rw [List.mem_toFinset] at this
      rw [List.mem_toFinset]
      exact mem_alKeys_alBump.2 (Or.inr this)
    | up =>
      have hred : handlePreMatchPressedModifier ctx st k KeyState.up true
          = ({ st with
                activeModifiers := alErase st.activeModifiers k,
                mode := if alErase st.activeModifiers k = []
                    then Mode.PRE_MATCH_INIT else st.mode },
             [(k, KeyState.up)]) := rfl
      rw [hred]
      by_cases hnil : alErase st.activeModifiers k = []
      · rw [if_pos hnil]
        refine engInv_INIT rfl hnil hkeys ?_
        have hsub := erase_subset_alErase (E := E) (l := st.activeModifiers) (k := k) hE
        rw [hnil] at hsub
        simp only [alKeys, List.map_nil, List.toFinset_nil] at hsub
        exact Finset.subset_empty.1 hsub
      · rw [if_neg hnil]
        refine engInv_PPM hm hkeys (erase_subset_alErase hE) ?_
        intro p hp
        exact hso p (alErase_subset p hp)
  | false =>
    cases ks with
    | up => exact engInv_PPM hm hkeys hE hso
    | down =>
      exact inv_after_tryMatch (Or.inl ⟨hm, hE, hso⟩)
    | hold =>
      exact inv_after_tryMatch (Or.inl ⟨hm, hE, hso⟩)

theorem inv_mu {ctx : EngCtx} {st : EngState} {k : Nat} {ks : KeyState} {b : Bool}
    {E : Finset Nat} (hm : st.mode = Mode.MATCHED ∨ st.mode = Mode.UNMATCHED)
    (hE : E = ∅) :
    EngInv (handleMatchedOrUnmated ctx st k ks b).1
      ((handleMatchedOrUnmated ctx st k ks b).2.foldl stepDown E) := by
  subst hE
  have hne : st.mode ≠ Mode.PRE_MATCH_PRESSED_MODIFIER := by
    rcases hm with h | h <;> simp [h]
  cases b with
  | true =>
    cases ks with
    | down =>
      exact engInv_finalize
        { st with
          activeModifiers := alSet st.activeModifiers k ⟨KeyState.down, 1, false⟩ }
        hm rfl
    | hold =>
      exact engInv_finalize
        { st with
          activeModifiers := alSet st.activeModifiers k ⟨KeyState.hold, 1, false⟩ }
        hm rfl
    | up =>
      exact engInv_finalize
        { st with activeModifiers := alErase st.activeModifiers k } hm rfl
  | false =>
    cases ks with
    | up =>
      exact engInv_finalize
        { st with activeKeys := alErase st.activeKeys k } hm rfl
    | down =>
      exact engInv_finalize
        (tryMatchKey ctx
          { st with activeKeys := alSet st.activeKeys k ⟨KeyState.down, 1, false⟩ } k).1
        (tmMode_MU ctx _ k)
        (tryMatch_closes ctx _ k ∅ (Or.inr ⟨hne, rfl⟩))
    | hold =>
      exact engInv_finalize
        (tryMatchKey ctx
          { st with activeKeys := alSet st.activeKeys k ⟨KeyState.hold, 1, false⟩ } k).1
        (tmMode_MU ctx _ k)
        (tryMatch_closes ctx _ k ∅ (Or.inr ⟨hne, rfl⟩))

/-- The invariant is preserved by every engine step. -/
theorem inv_preserved (ctx : EngCtx) (st : EngState) (E : Finset Nat) (ev : KeyEv)
    (h : EngInv st E) :
    EngInv (stepEngine ctx st ev).1 ((stepEngine ctx st ev).2.foldl stepDown E) := by
  obtain ⟨hI, hK, hM, hMU⟩ := h
  obtain ⟨k, ks⟩ := ev
  cases hm : st.mode with
  | PRE_MATCH_INIT =>
    obtain ⟨h1, h2, h3⟩ := hI hm
    simp only [stepEngine, hm]
    exact inv_init h1 h2 h3
  | PRE_MATCH_PRESSED_KEY =>
    obtain ⟨h1, h2⟩ := hK hm
    simp only [stepEngine, hm]
    exact inv_pressed_key hm h1 h2
  | PRE_MATCH_PRESSED_MODIFIER =>
    obtain ⟨h1, h2, h3⟩ := hM hm
    simp only [stepEngine, hm]
    exact inv_ppm hm h1 h2 h3
  | MATCHED =>
    simp only [stepEngine, hm]
    exact inv_mu (Or.inl hm) (hMU (Or.inl hm))
  | UNMATCHED =>
    simp only [stepEngine, hm]
    exact inv_mu (Or.inr hm) (hMU (Or.inr hm))

theorem openDowns_append (a b : List KeyEv) :
    openDowns (a ++ b) = b.foldl stepDown (openDowns a) := by
  simp [openDowns, List.foldl_append]

/-- The invariant holds along any run of the event pump. -/
theorem foldl_engStep_inv (ctx : EngCtx) (evs : List KeyEv) :
    ∀ (st : EngState) (out : List KeyEv), EngInv st (openDowns out) →
      EngInv (evs.foldl (engStep ctx) (st, out)).1
        (openDowns (evs.foldl (engStep ctx) (st, out)).2) := by
  induction evs with
  | nil => intro st out h; simpa using h
  | cons e t ih =>
    intro st out h
    simp only [List.foldl_cons]
    have hstep : EngInv (engStep ctx (st, out) e).1
        (openDowns (engStep ctx (st, out) e).2) := by
      show EngInv (stepEngine ctx st e).1 (openDowns (out ++ (stepEngine ctx st e).2))
      rw [openDowns_append]
      exact inv_preserved ctx st (openDowns out) e h
    exact ih (engStep ctx (st, out) e).1 (engStep ctx (st, out) e).2 hstep

/-- The invariant at the end of any whole run from the initial state. -/
theorem run_inv (ctx : EngCtx) (evs : List KeyEv) :
    EngInv (runEngine ctx evs).1 (openDowns (runEngine ctx evs).2) := by
  have h0 : EngInv initState (openDowns []) :=
    engInv_INIT rfl rfl rfl rfl
  exact foldl_engStep_inv ctx evs initState [] h0

theorem mem_foldl_stepDown {l : List KeyEv} {s : Finset Nat} {k : Nat}
    (hk : k ∈ s) (hnup : ∀ j : Nat, l[j]? ≠ some (k, KeyState.up)) :
    k ∈ l.foldl stepDown s := by
  induction l generalizing s with
  | nil => simpa using hk
  | cons e t ih =>
    rw [List.foldl_cons]
    have hk' : k ∈ stepDown s e := by
      obtain ⟨c, cs⟩ := e
      cases cs with
      | down => exact Finset.mem_insert_of_mem hk
      | hold => exact hk
      | up =>
        have hne : c ≠ k := by
          intro hc
          exact (hnup 0) (by simp [hc])
        exact Finset.mem_erase.2 ⟨Ne.symm hne, hk⟩
    refine ih hk' ?_
    intro j
    have := hnup (j + 1)
    simpa using this

/-- If a key is virtually down entering `l` and is closed by the end,
`l` contains an UP for it. -/
theorem upExists (l : List KeyEv) (s : Finset Nat) (k : Nat)
    (hk : k ∈ s) (h : k ∉ l.foldl stepDown s) :
    ∃ j : Nat, l[j]? = some (k, KeyState.up) := by
  by_contra hno
  push_neg at hno
  exact h (mem_foldl_stepDown hk hno)

/-- If the emitted stream leaves no key open, every DOWN in it is
followed by a later UP of the same key. -/
theorem no_open_then_up (l : List KeyEv) (s : Finset Nat) (k : Nat) (i : Nat)
    (h : k ∉ l.foldl stepDown s) (hi : l[i]? = some (k, KeyState.down)) :
    ∃ j, i < j ∧ l[j]? = some (k, KeyState.up) := by
  induction l generalizing s i with
  | nil => simp at hi
  | cons e t ih =>
    cases i with
    | zero =>
      have he : e = (k, KeyState.down) := by simpa using hi
      subst he
      rw [List.foldl_cons] at h
      have hk : k ∈ stepDown s (k, KeyState.down) := Finset.mem_insert_self k s
      obtain ⟨j, hj⟩ := upExists t (stepDown s (k, KeyState.down)) k hk h
      exact ⟨j + 1, Nat.succ_pos j, by simpa using hj⟩
    | succ n =>
      have hi' : t[n]? = some (k, KeyState.down) := by simpa using hi
      rw [List.foldl_cons] at h
      obtain ⟨j, hij, hj⟩ := ih (stepDown s e) n h hi'
      exact ⟨j + 1, Nat.succ_lt_succ hij, by simpa using hj⟩

/-- Claim C4: for every input stream processed from the initial state,
if the engine has (re)reached PRE_MATCH_INIT, then every DOWN it
emitted for a key code `k` on the virtual device is followed by a
later emitted UP for `k` — i.e. all virtual DOWNs are closed before
the engine next reaches PRE_MATCH_INIT. -/
theorem c4_thm (ctx : EngCtx) (evs : List KeyEv)
    (h : (runEngine ctx evs).1.mode = Mode.PRE_MATCH_INIT)
    (i k : Nat) (hi : (runEngine ctx evs).2[i]? = some (k, KeyState.down)) :
    ∃ j, i < j ∧ (runEngine ctx evs).2[j]? = some (k, KeyState.up) := by
  have hinv := run_inv ctx evs
  have hE : openDowns (runEngine ctx evs).2 = ∅ := (hinv.1 h).2.2
  refine no_open_then_up _ ∅ k i ?_ hi
  show k ∉ openDowns (runEngine ctx evs).2
  rw [hE]
  exact Finset.not_mem_empty k

/-- Claim C4 witness: in the run `alt DOWN, j DOWN, j UP, alt UP`
(ending at PRE_MATCH_INIT) the emitted `alt DOWN` at position 0 has a
later `alt UP`. -/
theorem c4_witness :
    ∃ j, 0 < j ∧ (runEngine ctx0 [(56, .down), (36, .down), (36, .up), (56, .up)]).2[j]?
      = some (56, KeyState.up) :=
  c4_thm ctx0 [(56, .down), (36, .down), (36, .up), (56, .up)] (by decide) 0 56 (by decide)

/-! ### Predicate evaluation (claim C8) -/

theorem pySetEq_refl (l : List Nat) : pySetEq l l = true := by
  simp [pySetEq, List.all_eq_true]

theorem isMatch_keys_ok (search : String → String → Bool) (r : KeyMapping)
    (w : Window) :
    isMatch search r r.src_modifiers r.src_key w = winPredicate search r w := by
  simp [isMatch, pySetEq_refl]

theorem evalDict_absent_cls (search : String → String → Bool) (isNot isOr : Bool)
    (tp : String) (w : Window) (htp : tp.isEmpty = false) :
    evalDict search isNot isOr ⟨none, some tp, false⟩ w
      = (if w.title.isEmpty then true
         else if isNot then !(search tp w.title) else search tp w.title) := by
  by_cases ht : w.title.isEmpty
  · simp [evalDict, patContrib, ht, htp]
  · simp [evalDict, patContrib, ht, htp]

theorem evalDict_absent_title (search : String → String → Bool) (isNot isOr : Bool)
    (cp : String) (w : Window) (hcp : cp.isEmpty = false) :
    evalDict search isNot isOr ⟨some cp, none, false⟩ w
      = (if w.class_.isEmpty then true
         else if isNot then !(search cp w.class_) else search cp w.class_) := by
  by_cases hc : w.class_.isEmpty
  · simp [evalDict, patContrib, hc, hcp]
  · simp [evalDict, patContrib, hc, hcp]

theorem evalDict_both_absent (search : String → String → Bool) (isNot isOr o : Bool)
    (w : Window) : evalDict search isNot isOr ⟨none, none, o⟩ w = true := rfl

/-- Claim C8: with the rule's key conditions holding and a window with
at least one non-empty field, an absent sub-pattern contributes no
constraint under ALL/NOT_ALL (the result is the other sub-pattern's
contribution alone, vacuously true when it does not apply), an absent
sub-pattern contributes `false` under ANY/NOT_ANY (the result is
exactly the present, applicable sub-pattern's contribution), and a
truthy predicate dict with both sub-patterns absent — or no predicate
dict at all — is vacuously true. -/
theorem c8_thm (search : String → String → Bool) (w : Window)
    (sm : List Nat) (sk dk : Nat) (dm : List Nat) (tp cp : String)
    (hw : (w.title.isEmpty && w.class_.isEmpty) = false)
    (htp : tp.isEmpty = false) (hcp : cp.isEmpty = false) :
    (isMatch search ⟨sm, sk, dm, dk, ⟨none, some tp, false⟩, emptyDict, emptyDict,
        emptyDict⟩ sm sk w
      = (if w.title.isEmpty then true else search tp w.title))
    ∧ (isMatch search ⟨sm, sk, dm, dk, ⟨some cp, none, false⟩, emptyDict, emptyDict,
        emptyDict⟩ sm sk w
      = (if w.class_.isEmpty then true else search cp w.class_))
    ∧ (isMatch search ⟨sm, sk, dm, dk, emptyDict, ⟨none, some tp, false⟩, emptyDict,
        emptyDict⟩ sm sk w
      = (if w.title.isEmpty then true else search tp w.title))
    ∧ (isMatch search ⟨sm, sk, dm, dk, emptyDict, ⟨some cp, none, false⟩, emptyDict,
        emptyDict⟩ sm sk w
      = (if w.class_.isEmpty then true else search cp w.class_))
    ∧ (isMatch search ⟨sm, sk, dm, dk, emptyDict, emptyDict, ⟨none, some tp, false⟩,
        emptyDict⟩ sm sk w
      = (if w.title.isEmpty then true else !(search tp w.title)))
    ∧ (isMatch search ⟨sm, sk, dm, dk, emptyDict, emptyDict, ⟨some cp, none, false⟩,
        emptyDict⟩ sm sk w
      = (if w.class_.isEmpty then true else !(search cp w.class_)))
    ∧ (isMatch search ⟨sm, sk, dm, dk, emptyDict, emptyDict, emptyDict,
        ⟨none, some tp, false⟩⟩ sm sk w
      = (if w.title.isEmpty then true else !(search tp w.title)))
    ∧ (isMatch search ⟨sm, sk, dm, dk, emptyDict, emptyDict, emptyDict,
        ⟨some cp, none, false⟩⟩ sm sk w
      = (if w.class_.isEmpty then true else !(search cp w.class_)))
    ∧ (isMatch search ⟨sm, sk, dm, dk, ⟨none, none, true⟩, emptyDict, emptyDict,
        emptyDict⟩ sm sk w = true)
    ∧ (isMatch search ⟨sm, sk, dm, dk, emptyDict, ⟨none, none, true⟩, emptyDict,
        emptyDict⟩ sm sk w = true)
    ∧ (isMatch search ⟨sm, sk, dm, dk, emptyDict, emptyDict, emptyDict,
        emptyDict⟩ sm sk w = true) := by
  have hkey : ∀ (d1 d2 d3 d4 : MatchDict),
      isMatch search ⟨sm, sk, dm, dk, d1, d2, d3, d4⟩ sm sk w
        = winPredicate search ⟨sm, sk, dm, dk, d1, d2, d3, d4⟩ w :=
    fun d1 d2 d3 d4 => isMatch_keys_ok search ⟨sm, sk, dm, dk, d1, d2, d3, d4⟩ w
  refine ⟨?_, ?_, ?_, ?_, ?_, ?_, ?_, ?_, ?_, ?_, ?_⟩
  · rw [hkey]
    simp only [winPredicate, MatchDict.truthy, emptyDict, hw, Bool.false_eq_true,
      if_false, Option.isSome_some, Option.isSome_none, Bool.false_or,
      Bool.or_false, Bool.true_or, Bool.or_true, if_true, ite_true, ite_false]
    rw [evalDict_absent_cls search false false tp w htp]
    simp
  · rw [hkey]
    simp only [winPredicate, MatchDict.truthy, emptyDict, hw, Bool.false_eq_true,
      if_false, Option.isSome_some, Option.isSome_none, Bool.false_or,
      Bool.or_false, Bool.true_or, Bool.or_true, if_true, ite_true, ite_false]
    rw [evalDict_absent_title search false false cp w hcp]
    simp
  · rw [hkey]
    simp only [winPredicate, MatchDict.truthy, emptyDict, hw, Bool.false_eq_true,
      if_false, Option.isSome_some, Option.isSome_none, Bool.false_or,
      Bool.or_false, Bool.true_or, Bool.or_true, if_true, ite_true, ite_false]
    rw [evalDict_absent_cls search false true tp w htp]
    simp
  · rw [hkey]
    simp only [winPredicate, MatchDict.truthy, emptyDict, hw, Bool.false_eq_true,
      if_false, Option.isSome_some, Option.isSome_none, Bool.false_or,
      Bool.or_false, Bool.true_or, Bool.or_true, if_true, ite_true, ite_false]
    rw [evalDict_absent_title search false true cp w hcp]
    simp
  · rw [hkey]
    simp only [winPredicate, MatchDict.truthy, emptyDict, hw, Bool.false_eq_true,
      if_false, Option.isSome_some, Option.isSome_none, Bool.false_or,
      Bool.or_false, Bool.true_or, Bool.or_true, if_true, ite_true, ite_false]
    rw [evalDict_absent_cls search true false tp w htp]
    simp
  · rw [hkey]
    simp only [winPredicate, MatchDict.truthy, emptyDict, hw, Bool.false_eq_true,
      if_false, Option.isSome_some, Option.isSome_none, Bool.false_or,
      Bool.or_false, Bool.true_or, Bool.or_true, if_true, ite_true, ite_false]
    rw [evalDict_absent_title search true false cp w hcp]
    simp
  · rw [hkey]
    simp only [winPredicate, MatchDict.truthy, emptyDict, hw, Bool.false_eq_true,
      if_false, Option.isSome_some, Option.isSome_none, Bool.false_or,
      Bool.or_false, Bool.true_or, Bool.or_true, if_true, ite_true, ite_false]
    rw [evalDict_absent_cls search true true tp w htp]
    simp
  · rw [hkey]
    simp only [winPredicate, MatchDict.truthy, emptyDict, hw, Bool.false_eq_true,
      if_false, Option.isSome_some, Option.isSome_none, Bool.false_or,
      Bool.or_false, Bool.true_or, Bool.or_true, if_true, ite_true, ite_false]
    rw [evalDict_absent_title search true true cp w hcp]
    simp
  · rw [hkey]
    simp [winPredicate, MatchDict.truthy, emptyDict, hw, evalDict, patContrib]
  · rw [hkey]
    simp [winPredicate, MatchDict.truthy, emptyDict, hw, evalDict, patContrib]
  · rw [hkey]
    simp [winPredicate, MatchDict.truthy, emptyDict, hw]

/-- Claim C8 witness: the ALL-kind absent-class case at a concrete
window with an empty title and a non-empty class, where the predicate
is vacuously satisfied. -/
theorem c8_witness :
    isMatch searchNone ⟨[29], 23, [], 30, ⟨none, some "t", false⟩, emptyDict,
        emptyDict, emptyDict⟩ [29] 23 ⟨"wc", ""⟩
      = (if ("" : String).isEmpty then true else searchNone "t" "") :=
  (c8_thm searchNone ⟨"wc", ""⟩ [29] 23 30 [] "t" "c" (by decide) (by decide)
    (by decide)).1

/-! ### Key-combination parsing (claim C9) -/

theorem dedup_length_iff {l : List Nat} : l.dedup.length = l.length ↔ l.Nodup := by
  constructor
  · intro h
    have heq : l.dedup = l := List.Sublist.eq_of_length (List.dedup_sublist l) h
    rw [← heq]
    exact List.nodup_dedup l
  · intro h
    rw [List.dedup_eq_self.2 h]

/-- Claim C9: restricted to combinations whose components all resolve
to key codes, `split_key_combination` succeeds exactly when there is
exactly one non-modifier key, no duplicated modifier, and — for a
source combination — at least one modifier (a destination combination
with zero modifiers succeeds); on success it returns the modifier set
and the single non-modifier code. -/
theorem c9_thm (ec : String → Option Nat) (comb : String) (is_src : Bool)
    (codes : List Nat)
    (hres : resolveKeys ec ((splitChar '+' comb).map (fun c => strLower (strStrip c)))
      = some codes) :
    ((splitKeyCombination ec comb is_src).isSome = true ↔
      ((codes.filter (fun c => !isModifierCode c)).length = 1
        ∧ (codes.filter (fun c => isModifierCode c)).Nodup
        ∧ (is_src = true → codes.filter (fun c => isModifierCode c) ≠ [])))
    ∧ ∀ ms k, splitKeyCombination ec comb is_src = some (ms, k) →
        ms = (codes.filter (fun c => isModifierCode c)).dedup
        ∧ k = (codes.filter (fun c => !isModifierCode c)).headD 0 := by
  unfold splitKeyCombination
  rw [hres]
  simp only []
  split_ifs with h1 h2 h3 h4
  · refine ⟨iff_of_false (by simp) ?_, by simp⟩
    intro hc
    exact (hc.2.2 h1.1) ((List.dedup_eq_nil _).1 h1.2)
  · refine ⟨iff_of_false (by simp) ?_, by simp⟩
    intro hc
    exact absurd hc.1 (by simp [h2])
  · refine ⟨iff_of_false (by simp) ?_, by simp⟩
    intro hc
    exact h3 (dedup_length_iff.2 hc.2.1)
  · refine ⟨iff_of_false (by simp) ?_, by simp⟩
    intro hc
    exact h4 hc.1
  · refine ⟨iff_of_true rfl ⟨by omega, dedup_length_iff.1 (by omega), ?_⟩, ?_⟩
    · intro hsrc hmods
      refine h1 ⟨hsrc, ?_⟩
      rw [hmods]
      rfl
    · intro ms k hk
      have h := Option.some.inj hk
      exact ⟨(congrArg Prod.fst h).symm, (congrArg Prod.snd h).symm⟩

/-- Claim C9 witness: `split_key_combination("ctrl+i", is_src=True)`
succeeds on a table resolving `i`. -/
theorem c9_witness : (splitKeyCombination ecSmall "ctrl+i" true).isSome = true :=
  ((c9_thm ecSmall "ctrl+i" true [29, 23] (by decide)).1).mpr (by decide)

end Magickey
